import Mathlib

/-!
Shallow embedding of `src/RssMonitor/function_v2.py` (the RSS feed monitor),
used to check the natural-language specification against the code.

Modelling conventions:
* Python values coming from `json.loads` are embedded as `PyVal`.
* The feed-fetching collaborator (`feedparser.parse`) and the webhook
  transport (`requests.post`) are black boxes, passed as function
  parameters returning `Except` (an `Except.error` models a raised
  exception, `Except.ok` a normal return).
* `re.search(rf"\b|KW|\b", content, re.IGNORECASE)` (with the keyword
  interpolated between the two word-boundary anchors) is embedded for a
  fragment of Python regex grammar: keywords made of literal characters
  (ASCII alphanumerics, space, hyphen, underscore), the metacharacter
  `.` (any character except newline), and grouping parentheses.
  Unbalanced parentheses raise `re.error`, as in Python.  Keywords using
  characters outside this fragment are outside the model: functions
  return `none` for them, and every theorem below stays inside the
  fragment.  Character semantics (case folding, word characters) follow
  the ASCII model, which covers all inputs used in the theorems.
-/

/-- A parsed JSON value as a Python object (result of `json.loads`). -/
inductive PyVal where
  | null : PyVal
  | bool (b : Bool) : PyVal
  | num (n : Int) : PyVal
  | str (s : String) : PyVal
  | arr (xs : List PyVal) : PyVal
  | obj (kvs : List (String × PyVal)) : PyVal

mutual

/-- Decidable equality for `PyVal` (hand-written: the nested lists block
the automatic derivation). -/
def PyVal.decEq : (a b : PyVal) → Decidable (a = b)
  | .null, .null => isTrue rfl
  | .bool x, .bool y =>
    match inferInstanceAs (Decidable (x = y)) with
    | isTrue h => isTrue (by rw [h])
    | isFalse h => isFalse (fun he => by cases he; exact h rfl)
  | .num x, .num y =>
    match inferInstanceAs (Decidable (x = y)) with
    | isTrue h => isTrue (by rw [h])
    | isFalse h => isFalse (fun he => by cases he; exact h rfl)
  | .str x, .str y =>
    match inferInstanceAs (Decidable (x = y)) with
    | isTrue h => isTrue (by rw [h])
    | isFalse h => isFalse (fun he => by cases he; exact h rfl)
  | .arr xs, .arr ys =>
    match PyVal.decEqList xs ys with
    | isTrue h => isTrue (by rw [h])
    | isFalse h => isFalse (fun he => by cases he; exact h rfl)
  | .obj xs, .obj ys =>
    match PyVal.decEqKvs xs ys with
    | isTrue h => isTrue (by rw [h])
    | isFalse h => isFalse (fun he => by cases he; exact h rfl)
  | .null, .bool _ | .null, .num _ | .null, .str _ | .null, .arr _ | .null, .obj _
  | .bool _, .null | .bool _, .num _ | .bool _, .str _ | .bool _, .arr _ | .bool _, .obj _
  | .num _, .null | .num _, .bool _ | .num _, .str _ | .num _, .arr _ | .num _, .obj _
  | .str _, .null | .str _, .bool _ | .str _, .num _ | .str _, .arr _ | .str _, .obj _
  | .arr _, .null | .arr _, .bool _ | .arr _, .num _ | .arr _, .str _ | .arr _, .obj _
  | .obj _, .null | .obj _, .bool _ | .obj _, .num _ | .obj _, .str _ | .obj _, .arr _ =>
    isFalse (fun he => by cases he)

/-- Decidable equality for lists of `PyVal`. -/
def PyVal.decEqList : (xs ys : List PyVal) → Decidable (xs = ys)
  | [], [] => isTrue rfl
  | [], _ :: _ => isFalse (fun he => by cases he)
  | _ :: _, [] => isFalse (fun he => by cases he)
  | x :: xs, y :: ys =>
    match PyVal.decEq x y, PyVal.decEqList xs ys with
    | isTrue h1, isTrue h2 => isTrue (by rw [h1, h2])
    | isFalse h1, _ => isFalse (fun he => by cases he; exact h1 rfl)
    | _, isFalse h2 => isFalse (fun he => by cases he; exact h2 rfl)

/-- Decidable equality for key-value lists of `PyVal`. -/
def PyVal.decEqKvs : (xs ys : List (String × PyVal)) → Decidable (xs = ys)
  | [], [] => isTrue rfl
  | [], _ :: _ => isFalse (fun he => by cases he)
  | _ :: _, [] => isFalse (fun he => by cases he)
  | (k1, v1) :: xs, (k2, v2) :: ys =>
    match inferInstanceAs (Decidable (k1 = k2)), PyVal.decEq v1 v2, PyVal.decEqKvs xs ys with
    | isTrue h0, isTrue h1, isTrue h2 => isTrue (by rw [h0, h1, h2])
    | isFalse h0, _, _ => isFalse (fun he => by cases he; exact h0 rfl)
    | _, isFalse h1, _ => isFalse (fun he => by cases he; exact h1 rfl)
    | _, _, isFalse h2 => isFalse (fun he => by cases he; exact h2 rfl)

end

instance : DecidableEq PyVal := PyVal.decEq

/-- Python `str(v)`, as used by f-string interpolation.  Exact on the
scalar constructors; container values are abbreviated (they only occur
in the development as keywords outside the modelled regex fragment,
where only the presence of a non-fragment character matters). -/
def pyStr : PyVal → String
  | .null => "None"
  | .bool true => "True"
  | .bool false => "False"
  | .num n => toString n
  | .str s => s
  | .arr _ => "[py-list]"
  | .obj _ => "[py-dict]"

/-- Python iteration `for x in v`: lists yield their elements, strings
their characters (as one-character strings), dicts their keys; other
values raise `TypeError`. -/
def pyIter : PyVal → Except String (List PyVal)
  | .arr xs => .ok xs
  | .str s => .ok (s.data.map (fun c => PyVal.str (String.mk [c])))
  | .obj kvs => .ok (kvs.map (fun kv => PyVal.str kv.1))
  | _ => .error "TypeError: object is not iterable"

/-- Python `len(v)`: defined for lists, strings and dicts; other values
raise `TypeError`. -/
def pyLen : PyVal → Except String Nat
  | .arr xs => .ok xs.length
  | .str s => .ok s.data.length
  | .obj kvs => .ok kvs.length
  | _ => .error "TypeError: object has no len"

/-- Python `d.get(key, default)` on a dict value (first binding wins,
matching the single-binding configs used throughout). -/
def pyGetD (cfg : PyVal) (key : String) (d : PyVal) : PyVal :=
  match cfg with
  | .obj kvs => (kvs.lookup key).getD d
  | _ => d

/-- One item of a parsed feed: `title`, `summary` and `link` fields are
optional, `entry.get(field, "")` supplies the empty-string default. -/
structure FeedEntry where
  title : Option String
  summary : Option String
  link : Option String
deriving DecidableEq

/-- One element of `results["matches"]` built by `process_feed`:
the dict literal with keys `title`, `url`, `keywords`.  The keywords
are the original objects appended by `match_keywords`. -/
structure MatchedEntry where
  title : String
  url : String
  keywords : List PyVal
deriving DecidableEq

/-- The dict returned by `process_feed`: `feed` and `matches` are always
present; `error` is present exactly when the try block raised.  The
source key `matches` is rendered as the field `matchList` because
`matches` is reserved in Lean. -/
structure FeedResult where
  feed : PyVal
  matchList : List MatchedEntry
  error : Option String
deriving DecidableEq

/-- One element of `message["attachments"]` built by `send_alert`. -/
structure Attachment where
  title : String
  title_link : String
  text : String
deriving DecidableEq

/-- The webhook payload built by `send_alert`. -/
structure Message where
  text : String
  attachments : List Attachment
deriving DecidableEq

/- ------------------------------------------------------------------
Embedding of `re.search` for the modelled pattern fragment.
------------------------------------------------------------------ -/

/-- A compiled pattern atom: a literal character or the `.` wildcard. -/
inductive Atom where
  | lit (c : Char) : Atom
  | anyChar : Atom
deriving DecidableEq

/-- Characters the model treats as regex-literal when interpolated into
the pattern: ASCII alphanumerics, space, hyphen, underscore. -/
def litChar (c : Char) : Bool :=
  c.isAlphanum || c == ' ' || c == '-' || c == '_'

/-- Compiles the keyword body of `rf"\b|KW|\b"`.  Literal characters and
`.` become atoms; balanced parentheses are pure grouping and vanish;
an unbalanced parenthesis raises `re.error` (result `some (.error ())`);
any other character is outside the modelled fragment (result `none`). -/
def compileAux : List Char → Nat → List Atom → Option (Except Unit (List Atom))
  | [], 0, acc => some (.ok acc)
  | [], _ + 1, _ => some (.error ())
  | c :: cs, d, acc =>
    if litChar c then compileAux cs d (acc ++ [Atom.lit c])
    else if c == '.' then compileAux cs d (acc ++ [Atom.anyChar])
    else if c == '(' then compileAux cs (d + 1) acc
    else if c == ')' then
      match d with
      | 0 => some (.error ())
      | e + 1 => compileAux cs e acc
    else none

/-- Compile a whole keyword. -/
def compileKeyword (k : String) : Option (Except Unit (List Atom)) :=
  compileAux k.data 0 []

/-- Case-insensitive atom-versus-character test (`re.IGNORECASE`, ASCII
model); `.` matches every character except newline. -/
def atomMatch : Atom → Char → Bool
  | .lit c, d => c.toLower == d.toLower
  | .anyChar, d => d != '\n'

/-- Python `\w` over the ASCII model. -/
def isWordChar (c : Char) : Bool :=
  c.isAlphanum || c == '_'

/-- Whether position `i` of the text holds a word character (out of
range counts as non-word). -/
def wordAt (t : List Char) (i : Nat) : Bool :=
  match t.get? i with
  | some c => isWordChar c
  | none => false

/-- Python `\b` at position `i`: the word-character status changes
between the previous position and this one. -/
def boundaryAt (t : List Char) (i : Nat) : Bool :=
  (match i with
   | 0 => false
   | j + 1 => wordAt t j) != wordAt t i

/-- Consume the atom list against the text starting at position `i`;
returns the end position on success. -/
def consumeIdx : List Atom → List Char → Nat → Option Nat
  | [], _, i => some i
  | a :: as, t, i =>
    match t.get? i with
    | none => none
    | some c => if atomMatch a c then consumeIdx as t (i + 1) else none

/-- The pattern `\b ATOMS \b` matches the text at position `i`. -/
def matchHereIdx (atoms : List Atom) (t : List Char) (i : Nat) : Bool :=
  boundaryAt t i &&
    (match consumeIdx atoms t i with
     | some j => boundaryAt t j
     | none => false)

/-- `re.search` for the compiled pattern: some position of the text
(left to right, including the end position) matches.  Only the
truthiness of the Python result is used by the program. -/
def reSearch (atoms : List Atom) (t : List Char) : Bool :=
  (List.range (t.length + 1)).any (fun i => matchHereIdx atoms t i)

/-- Outcome of one `re.search(rf"\b|KW|\b", content, re.IGNORECASE)` call. -/
inductive SearchRes where
  | found : SearchRes
  | missed : SearchRes
  | raised : SearchRes
deriving DecidableEq

/-- Run one keyword search; `none` when the keyword leaves the modelled
regex fragment. -/
def searchOutcome (k : String) (content : String) : Option SearchRes :=
  match compileKeyword k with
  | none => none
  | some (.error _) => some .raised
  | some (.ok atoms) =>
    some (if reSearch atoms content.data then .found else .missed)

/-- Fixed description for a raised `re.error` (the program only stores
`str(e)`, and no claim inspects the exact wording). -/
def reErrMsg : String := "re.error: invalid pattern"

/-- The keyword loop of `match_keywords`: scan the keywords in order,
collecting those whose search succeeds; a raising keyword aborts the
whole call with an exception.  `none` when some scanned keyword leaves
the modelled fragment. -/
def matchKwList (content : String) : List PyVal → Option (Except String (List PyVal))
  | [] => some (.ok [])
  | kj :: rest =>
    match searchOutcome (pyStr kj) content with
    | none => none
    | some .raised => some (.error reErrMsg)
    | some .found =>
      match matchKwList content rest with
      | none => none
      | some (.error e) => some (.error e)
      | some (.ok ms) => some (.ok (kj :: ms))
    | some .missed => matchKwList content rest

/-- `match_keywords(content, keywords)`: iterate the keywords object
(raising `TypeError` when it is not iterable) and return the matching
keywords in the order supplied. -/
def match_keywords (content : String) (keywords : PyVal) : Option (Except String (List PyVal)) :=
  match pyIter keywords with
  | .error e => some (.error e)
  | .ok kjs => matchKwList content kjs

/- ------------------------------------------------------------------
FeedProcessor: `process_feed`.
------------------------------------------------------------------ -/

/-- The combined text `f"|title| |summary|"` (title, a space, summary)
with missing fields defaulting to the empty string. -/
def entryContent (e : FeedEntry) : String :=
  e.title.getD "" ++ " " ++ e.summary.getD ""

/-- The match dict appended by `process_feed` for one matching entry. -/
def mkMatched (e : FeedEntry) (ms : List PyVal) : MatchedEntry :=
  { title := e.title.getD "", url := e.link.getD "", keywords := ms }

/-- The entry loop of `process_feed`: accumulate match dicts in entry
order; a raising `match_keywords` call aborts the loop, keeping the
matches accumulated so far and recording the error (the try block in
`process_feed` catches it).  `none` when the model does not cover some
keyword. -/
def processEntries (kJ : PyVal) : List FeedEntry → Option (List MatchedEntry × Option String)
  | [] => some ([], none)
  | e :: es =>
    match match_keywords (entryContent e) kJ with
    | none => none
    | some (.error m) => some ([], some m)
    | some (.ok ms) =>
      if ms.isEmpty then processEntries kJ es
      else
        match processEntries kJ es with
        | none => none
        | some (rest, err) => some (mkMatched e ms :: rest, err)

/-- `process_feed(feed_url, keywords)`: fetch and parse the feed (black
box `fetch`; a raise is caught and recorded), then scan every entry.
Always returns a result dict, never raises. -/
def process_feed (fetch : PyVal → Except String (List FeedEntry))
    (feed_url : PyVal) (keywords : PyVal) : Option FeedResult :=
  match fetch feed_url with
  | .error e => some { feed := feed_url, matchList := [], error := some e }
  | .ok entries =>
    match processEntries keywords entries with
    | none => none
    | some (ms, err) => some { feed := feed_url, matchList := ms, error := err }

/- ------------------------------------------------------------------
AlertDispatcher: `send_alert`.
------------------------------------------------------------------ -/

/-- The underlying strings of a list of values; `none` when some value
is not a string. -/
def strValues : List PyVal → Option (List String)
  | [] => some []
  | PyVal.str s :: rest =>
    match strValues rest with
    | none => none
    | some ss => some (s :: ss)
  | _ => none

/-- Python `", ".join(keywords)`: raises `TypeError` when some element
is not a string. -/
def pyJoinComma (ks : List PyVal) : Option String :=
  match strValues ks with
  | none => none
  | some ss => some (String.intercalate ", " ss)

/-- One attachment dict of the alert message; `none` models the
`TypeError` raised by the join on non-string keywords. -/
def mkAttachment (feed : PyVal) (m : MatchedEntry) : Option Attachment :=
  match pyJoinComma m.keywords with
  | none => none
  | some j =>
    some { title := m.title, title_link := m.url,
           text := "**Matched Keywords**: " ++ j ++ "\n**Source**: " ++ pyStr feed }

/-- The inner attachment loop of `send_alert` over one alert: one
attachment per matched entry, in order. -/
def attachmentsFor (feed : PyVal) : List MatchedEntry → Option (List Attachment)
  | [] => some []
  | me :: rest =>
    match mkAttachment feed me, attachmentsFor feed rest with
    | some a, some l => some (a :: l)
    | _, _ => none

/-- The attachment loop of `send_alert`: for every alert, for every
match, append one attachment. -/
def buildAttachments : List FeedResult → Option (List Attachment)
  | [] => some []
  | a :: rest =>
    match attachmentsFor a.feed a.matchList, buildAttachments rest with
    | some atts, some more => some (atts ++ more)
    | _, _ => none

/-- The full alert payload built by `send_alert`. -/
def buildMessage (alerts : List FeedResult) : Option Message :=
  match buildAttachments alerts with
  | none => none
  | some atts =>
    some { text := "🚨 **Threat Intelligence Alert** 🚨\n", attachments := atts }

/-- `send_alert(alerts)`: build one payload and POST it once.  Returns
the list of POSTs actually performed and the call outcome.  A raise in
the transport call is NOT caught by the source (it propagates); a
non-2xx status is only printed.  A `TypeError` while building the
message (non-string keywords in the join) also propagates, before any
POST. -/
def send_alert (post : Message → Except String Nat) (alerts : List FeedResult) :
    List Message × Except String Unit :=
  match buildMessage alerts with
  | none => ([], .error "TypeError: sequence item expected str instance")
  | some msg =>
    ([msg],
      match post msg with
      | .error e => .error e
      | .ok _ => .ok ())

/- ------------------------------------------------------------------
InvocationEntrypoint: `lambda_handler`.
------------------------------------------------------------------ -/

/-- The JSON body of the handler response (summary step). -/
structure Summary where
  total_feeds_checked : Nat
  feeds_with_matches : Nat
  alerts_sent : Nat
  details : List FeedResult
deriving DecidableEq

/-- The handler return value: `statusCode` and the serialized summary. -/
structure Response where
  statusCode : Nat
  body : Summary
deriving DecidableEq

/-- The per-feed results in submission order: the source submits one
`process_feed` future per feed in list order and awaits each
`future.result()` in that same order (a join barrier), so the collected
list follows the configured feed order independent of thread timing. -/
def scanResults (fetch : PyVal → Except String (List FeedEntry))
    (kJ : PyVal) (feedItems : List PyVal) : List (Option FeedResult) :=
  feedItems.map (fun f => process_feed fetch f kJ)

/-- Collect a list of optional values; `none` when any element is
outside the model. -/
def collectSome {α : Type} : List (Option α) → Option (List α)
  | [] => some []
  | none :: _ => none
  | some a :: rest =>
    match collectSome rest with
    | none => none
    | some as => some (a :: as)

/-- The alert filter of the handler:
`[r for r in results if "matches" in r and r["matches"]]`; the
`matches` key is always present, so the test is non-emptiness. -/
def alertsOf (results : List FeedResult) : List FeedResult :=
  results.filter (fun r => !r.matchList.isEmpty)

/-- `lambda_handler`: load config fields with empty-list defaults, scan
all feeds (submission order), filter the alerts, send one alert payload
when the alert list is non-empty, and return the 200 summary.  The
result pairs the POSTs performed with the invocation outcome
(`Except.error` models an uncaught exception failing the invocation);
`none` marks inputs outside the modelled regex fragment.  The
S3 config load is the black-box input `cfg` (its own failure mode,
`ConfigLoadError`, aborts before anything modelled here). -/
def lambda_handler (fetch : PyVal → Except String (List FeedEntry))
    (post : Message → Except String Nat) (cfg : PyVal) :
    Option (List Message × Except String Response) :=
  match cfg with
  | PyVal.obj _ =>
    let feedsJ := pyGetD cfg "feeds" (PyVal.arr [])
    let kJ := pyGetD cfg "keywords" (PyVal.arr [])
    match pyIter feedsJ with
    | .error e => some ([], .error e)
    | .ok feedItems =>
      match collectSome (scanResults fetch kJ feedItems) with
      | none => none
      | some results =>
        let alerts := alertsOf results
        let pr := if alerts.isEmpty then (([] : List Message), (Except.ok () : Except String Unit))
                  else send_alert post alerts
        match pr.2 with
        | .error e => some (pr.1, .error e)
        | .ok _ =>
          match pyLen feedsJ with
          | .error e => some (pr.1, .error e)
          | .ok n =>
            some (pr.1, .ok
              { statusCode := 200,
                body := { total_feeds_checked := n,
                          feeds_with_matches := alerts.length,
                          alerts_sent := alerts.length,
                          details := alerts } })
  | _ => some ([], .error "AttributeError: object has no attribute get")

/-- A config dict with string feeds and string keywords, as in the
expected S3 JSON document. -/
def mkCfg (feeds keywords : List String) : PyVal :=
  PyVal.obj [("feeds", PyVal.arr (feeds.map PyVal.str)),
             ("keywords", PyVal.arr (keywords.map PyVal.str))]

/- ------------------------------------------------------------------
Spec-side definitions (rendered from the words of the specification,
for comparison with the code-derived functions above).
------------------------------------------------------------------ -/

/-- A keyword made only of characters that the pattern interpolation
leaves literal (no regex metacharacters): ASCII alphanumerics, spaces,
hyphens, underscores. -/
def isLitKw (k : String) : Bool :=
  k.data.all litChar

/-- Spec-side matching semantics: the rule occurs in the text as a
case-insensitive literal delimited by word boundaries on both sides.
Rendered from the KeywordMatcher contract of the specification. -/
def specOccursWB (rule text : String) : Bool :=
  (List.range (text.data.length + 1)).any (fun i =>
    ((text.data.drop i).take rule.data.length).map Char.toLower
        == rule.data.map Char.toLower
      && boundaryAt text.data i
      && boundaryAt text.data (i + rule.data.length))

/- ------------------------------------------------------------------
Closed forms used in theorem statements (scaffolding derived from the
code for the literal-keyword case).
------------------------------------------------------------------ -/

/-- Closed form of the matches `process_feed` collects from a list of
entries when all keywords are literal strings: entries whose combined
text contains at least one keyword (spec-side semantics), in entry
order, each carrying its occurring keywords in keyword order. -/
def litMatches (ks : List String) : List FeedEntry → List MatchedEntry
  | [] => []
  | e :: es =>
    let ms := ks.filter (fun k => specOccursWB k (entryContent e))
    if ms.isEmpty then litMatches ks es
    else mkMatched e (ms.map PyVal.str) :: litMatches ks es

/-- Closed form of the `FeedResult` that `process_feed` produces for one
feed URL when all keywords are literal strings. -/
def resultOfLit (fetch : PyVal → Except String (List FeedEntry))
    (ks : List String) (u : PyVal) : FeedResult :=
  match fetch u with
  | .error e => { feed := u, matchList := [], error := some e }
  | .ok es => { feed := u, matchList := litMatches ks es, error := none }

/-- Decidable equality for `Except` values (not provided by core). -/
def exceptDecEq {e a : Type} [DecidableEq e] [DecidableEq a] :
    (x y : Except e a) → Decidable (x = y)
  | .error x, .error y =>
    match inferInstanceAs (Decidable (x = y)) with
    | isTrue h => isTrue (by rw [h])
    | isFalse h => isFalse (fun he => by cases he; exact h rfl)
  | .ok x, .ok y =>
    match inferInstanceAs (Decidable (x = y)) with
    | isTrue h => isTrue (by rw [h])
    | isFalse h => isFalse (fun he => by cases he; exact h rfl)
  | .error _, .ok _ => isFalse (fun he => by cases he)
  | .ok _, .error _ => isFalse (fun he => by cases he)

instance {e a : Type} [DecidableEq e] [DecidableEq a] : DecidableEq (Except e a) :=
  exceptDecEq

example : specOccursWB "cat" "a cat ran" = true := by decide
example : specOccursWB "cat" "Scattered" = false := by decide
example : match_keywords "a cat ran" (PyVal.arr [PyVal.str "cat"])
    = some (.ok [PyVal.str "cat"]) := by decide
example : match_keywords "Scattered" (PyVal.arr [PyVal.str "cat"])
    = some (.ok []) := by decide
example : match_keywords "Data Breach" (PyVal.arr [PyVal.str "data breach"])
    = some (.ok [PyVal.str "data breach"]) := by decide
example : match_keywords "cut" (PyVal.arr [PyVal.str "c.t"])
    = some (.ok [PyVal.str "c.t"]) := by decide
example : match_keywords "threat" (PyVal.arr [PyVal.str "("])
    = some (.error reErrMsg) := by decide

/- ------------------------------------------------------------------
Lemmas: the search engine on literal keywords agrees with the
spec-side word-boundary semantics.
------------------------------------------------------------------ -/

/-- Consuming a list of literal atoms from position `i` succeeds exactly
when the text continues with the keyword, case-insensitively, and the
end position is then `i` plus the keyword length. -/
theorem consumeIdx_lit (r : List Char) (t : List Char) (i : Nat) :
    consumeIdx (r.map Atom.lit) t i =
      if ((t.drop i).take r.length).map Char.toLower = r.map Char.toLower
      then some (i + r.length) else none := by
  induction r generalizing i with
  | nil => simp [consumeIdx]
  | cons c cs ih =>
    simp only [List.map_cons, consumeIdx]
    cases hg : t.get? i with
    | none =>
      have hlen : t.length ≤ i := List.get?_eq_none.mp hg
      have hd : t.drop i = [] := List.drop_eq_nil_of_le hlen
      simp [hd]
    | some d =>
      have hlt : i < t.length := (List.get?_eq_some.mp hg).1
      have hdrop : t.drop i = d :: t.drop (i + 1) := by
        have h1 := List.drop_eq_getElem_cons hlt
        have hid : t[i] = d := by
          obtain ⟨h2, h3⟩ := List.get?_eq_some.mp hg
          simpa using h3
        rw [h1, hid]
      rw [hdrop]
      simp only [List.length_cons, List.take_succ_cons, List.map_cons, atomMatch,
        List.cons.injEq]
      by_cases hc : c.toLower = d.toLower
      · rw [if_pos (by simp [hc])]
        rw [ih (i + 1)]
        have harith : i + 1 + cs.length = i + (cs.length + 1) := by omega
        rw [harith]
        by_cases hrest : ((t.drop (i + 1)).take cs.length).map Char.toLower
            = cs.map Char.toLower
        · rw [if_pos hrest, if_pos ⟨hc.symm, hrest⟩]
        · rw [if_neg hrest]
          rw [if_neg (fun hand => hrest hand.2)]
      · rw [if_neg (by simp [hc])]
        rw [if_neg (fun hand => hc hand.1.symm)]

/-- The anchored pattern of literal atoms matches at position `i`
exactly when the spec-side condition holds there. -/
theorem matchHereIdx_lit (r : List Char) (t : List Char) (i : Nat) :
    matchHereIdx (r.map Atom.lit) t i =
      (((t.drop i).take r.length).map Char.toLower == r.map Char.toLower
        && boundaryAt t i && boundaryAt t (i + r.length)) := by
  unfold matchHereIdx
  rw [consumeIdx_lit]
  by_cases h : ((t.drop i).take r.length).map Char.toLower = r.map Char.toLower
  · have hb : (((t.drop i).take r.length).map Char.toLower == r.map Char.toLower) = true :=
      beq_iff_eq.mpr h
    rw [if_pos h, hb]
    simp
  · have hb : (((t.drop i).take r.length).map Char.toLower == r.map Char.toLower) = false :=
      beq_eq_false_iff_ne.mpr h
    rw [if_neg h, hb]
    simp

/-- `re.search` of the interpolated pattern for a literal keyword agrees
with the spec-side word-boundary occurrence test. -/
theorem reSearch_lit (k text : String) :
    reSearch (k.data.map Atom.lit) text.data = specOccursWB k text := by
  unfold reSearch specOccursWB
  congr 1
  funext i
  exact matchHereIdx_lit k.data text.data i

/-- Compiling a run of literal characters yields the literal atoms, in
order, with no error. -/
theorem compileAux_lit (l : List Char) (acc : List Atom) (h : l.all litChar) :
    compileAux l 0 acc = some (.ok (acc ++ l.map Atom.lit)) := by
  induction l generalizing acc with
  | nil => simp [compileAux]
  | cons c cs ih =>
    simp only [List.all_cons, Bool.and_eq_true] at h
    unfold compileAux
    rw [if_pos h.1, ih _ h.2]
    simp

/-- Compiling a literal keyword succeeds with its literal atoms. -/
theorem compileKeyword_lit (k : String) (h : isLitKw k) :
    compileKeyword k = some (.ok (k.data.map Atom.lit)) := by
  unfold compileKeyword
  rw [compileAux_lit k.data [] h]
  rfl

/-- One keyword search, for a literal keyword, is decided by the
spec-side occurrence test. -/
theorem searchOutcome_lit (k content : String) (h : isLitKw k) :
    searchOutcome k content =
      some (if specOccursWB k content then SearchRes.found else SearchRes.missed) := by
  unfold searchOutcome
  rw [compileKeyword_lit k h]
  show some (if reSearch (k.data.map Atom.lit) content.data then SearchRes.found
    else SearchRes.missed) = _
  rw [reSearch_lit]

/-- The keyword loop on literal string keywords returns the ordered
sublist of keywords that occur in the content, and never raises. -/
theorem matchKwList_lit (content : String) (ks : List String)
    (h : ∀ k ∈ ks, isLitKw k) :
    matchKwList content (ks.map PyVal.str) =
      some (.ok ((ks.filter (fun k => specOccursWB k content)).map PyVal.str)) := by
  induction ks with
  | nil => simp [matchKwList]
  | cons k ks ih =>
    have hk : isLitKw k := h k (List.mem_cons_self k ks)
    have hks : ∀ x ∈ ks, isLitKw x := fun x hx => h x (List.mem_cons_of_mem _ hx)
    simp only [List.map_cons, matchKwList]
    have hps : pyStr (PyVal.str k) = k := rfl
    rw [hps, searchOutcome_lit k content hk]
    by_cases hs : specOccursWB k content
    · rw [if_pos hs]
      rw [ih hks]
      simp [List.filter_cons, hs]
    · rw [if_neg hs]
      rw [ih hks]
      simp [List.filter_cons, hs]

/-- `match_keywords` on a list of literal string keywords returns the
ordered matching sublist and never raises. -/
theorem match_keywords_lit (content : String) (ks : List String)
    (h : ∀ k ∈ ks, isLitKw k) :
    match_keywords content (PyVal.arr (ks.map PyVal.str)) =
      some (.ok ((ks.filter (fun k => specOccursWB k content)).map PyVal.str)) := by
  unfold match_keywords
  rw [show pyIter (PyVal.arr (ks.map PyVal.str)) = .ok (ks.map PyVal.str) from rfl]
  exact matchKwList_lit content ks h

/-- The entry loop on literal string keywords collects exactly the
entries with at least one occurring keyword, in entry order, and
records no error. -/
theorem processEntries_lit (ks : List String) (es : List FeedEntry)
    (h : ∀ k ∈ ks, isLitKw k) :
    processEntries (PyVal.arr (ks.map PyVal.str)) es = some (litMatches ks es, none) := by
  induction es with
  | nil => simp [processEntries, litMatches]
  | cons e es ih =>
    simp only [processEntries, match_keywords_lit (entryContent e) ks h, ih, litMatches]
    have hiso : ((ks.filter (fun k => specOccursWB k (entryContent e))).map PyVal.str).isEmpty
        = (ks.filter (fun k => specOccursWB k (entryContent e))).isEmpty := by
      cases hq : ks.filter (fun k => specOccursWB k (entryContent e)) <;> rfl
    rw [hiso]
    by_cases hm : (ks.filter (fun k => specOccursWB k (entryContent e))).isEmpty = true
    · rw [if_pos hm, if_pos hm]
    · rw [if_neg hm, if_neg hm]

/-- `process_feed` on literal string keywords equals its closed form:
the fetch error is recorded, or the matching entries are collected. -/
theorem process_feed_lit (fetch : PyVal → Except String (List FeedEntry))
    (ks : List String) (u : PyVal) (h : ∀ k ∈ ks, isLitKw k) :
    process_feed fetch u (PyVal.arr (ks.map PyVal.str)) = some (resultOfLit fetch ks u) := by
  unfold process_feed resultOfLit
  cases fetch u with
  | error e => rfl
  | ok es =>
    show (match processEntries (PyVal.arr (ks.map PyVal.str)) es with
          | none => (none : Option FeedResult)
          | some (ms, err) => some (FeedResult.mk u ms err))
        = some (FeedResult.mk u (litMatches ks es) none)
    rw [processEntries_lit ks es h]

/-- Collecting a list of defined optional values strips the `some`s. -/
theorem collectSome_map {α β : Type} (l : List α) (f : α → β) :
    collectSome (l.map (fun x => some (f x))) = some (l.map f) := by
  induction l with
  | nil => rfl
  | cons x xs ih =>
    simp only [List.map_cons, collectSome]
    rw [ih]

/-- A member of a collected list comes from a `some` element of the
input list. -/
theorem collectSome_mem {α : Type} (l : List (Option α)) (rs : List α) (r : α)
    (h : collectSome l = some rs) (hm : r ∈ rs) : some r ∈ l := by
  induction l generalizing rs with
  | nil =>
    simp only [collectSome, Option.some.injEq] at h
    subst h
    cases hm
  | cons o os ih =>
    cases o with
    | none => simp [collectSome] at h
    | some a =>
      simp only [collectSome] at h
      cases hc : collectSome os with
      | none => rw [hc] at h; simp at h
      | some as =>
        rw [hc] at h
        simp only [Option.some.injEq] at h
        subst h
        rcases List.mem_cons.mp hm with h1 | h2
        · subst h1; exact List.mem_cons_self _ _
        · exact List.mem_cons_of_mem _ (ih as hc h2)

/-- Closed form of one whole invocation for a well-formed config of
literal string keywords: the scan results in feed order, the alert
filter, at most one POST, and the 200 summary. -/
def handlerLit (fetch : PyVal → Except String (List FeedEntry))
    (post : Message → Except String Nat) (feeds ks : List String) :
    List Message × Except String Response :=
  let alerts := alertsOf (feeds.map (fun u => resultOfLit fetch ks (PyVal.str u)))
  let pr := if alerts.isEmpty then (([] : List Message), (Except.ok () : Except String Unit))
            else send_alert post alerts
  match pr.2 with
  | .error e => (pr.1, .error e)
  | .ok _ =>
    (pr.1, .ok (Response.mk 200 (Summary.mk feeds.length alerts.length alerts.length alerts)))

/-- The handler on a well-formed config of literal keywords computes its
closed form (in particular it stays inside the model). -/
theorem lambda_handler_lit (fetch : PyVal → Except String (List FeedEntry))
    (post : Message → Except String Nat) (feeds ks : List String)
    (h : ∀ k ∈ ks, isLitKw k) :
    lambda_handler fetch post (mkCfg feeds ks) = some (handlerLit fetch post feeds ks) := by
  have hscan : scanResults fetch (PyVal.arr (ks.map PyVal.str)) (feeds.map PyVal.str)
      = feeds.map (fun u => some (resultOfLit fetch ks (PyVal.str u))) := by
    unfold scanResults
    rw [List.map_map]
    exact List.map_congr_left (fun u _ => process_feed_lit fetch ks (PyVal.str u) h)
  have hcoll : collectSome (scanResults fetch (PyVal.arr (ks.map PyVal.str))
        (feeds.map PyVal.str))
      = some (feeds.map (fun u => resultOfLit fetch ks (PyVal.str u))) := by
    rw [hscan]
    exact collectSome_map feeds _
  have hfront : lambda_handler fetch post (mkCfg feeds ks) =
      (match collectSome (scanResults fetch (PyVal.arr (ks.map PyVal.str))
            (feeds.map PyVal.str)) with
       | none => none
       | some results =>
         let alerts := alertsOf results
         let pr := if alerts.isEmpty then (([] : List Message), (Except.ok () : Except String Unit))
                   else send_alert post alerts
         match pr.2 with
         | .error e => some (pr.1, .error e)
         | .ok _ =>
           match pyLen (PyVal.arr (feeds.map PyVal.str)) with
           | .error e => some (pr.1, .error e)
           | .ok n =>
             some (pr.1, .ok (Response.mk 200
               (Summary.mk n alerts.length alerts.length alerts)))) := rfl
  rw [hfront, hcoll]
  have hlen : pyLen (PyVal.arr (feeds.map PyVal.str)) = .ok feeds.length := by
    simp [pyLen]
  rw [hlen]
  unfold handlerLit
  by_cases he : (alertsOf (feeds.map (fun u => resultOfLit fetch ks (PyVal.str u)))).isEmpty
      = true
  · simp only [if_pos he]
  · simp only [if_neg he]
    cases hs : (send_alert post
        (alertsOf (feeds.map (fun u => resultOfLit fetch ks (PyVal.str u))))).2 with
    | error e => simp only [hs]
    | ok v => simp only [hs]

/- ------------------------------------------------------------------
Lemmas: a raising keyword raises regardless of the content
(`re.error` comes from compiling the pattern, which depends only on
the keyword), so an error-marked feed result carries no matches.
------------------------------------------------------------------ -/

/-- Whether one keyword search raises depends only on the keyword. -/
theorem searchOutcome_raised_indep (k c c2 : String)
    (h : searchOutcome k c = some SearchRes.raised) :
    searchOutcome k c2 = some SearchRes.raised := by
  unfold searchOutcome at h ⊢
  cases hc : compileKeyword k with
  | none => simp [hc] at h
  | some r =>
    cases r with
    | error u => simp [hc]
    | ok atoms =>
      rw [hc] at h
      by_cases hr : reSearch atoms c.data = true
      · simp [hr] at h
      · simp [hr] at h

/-- Whether the keyword loop raises, and with which message, depends
only on the keyword list, never on the content. -/
theorem matchKwList_error_indep (c c2 : String) :
    ∀ (kjs : List PyVal) (m : String),
      matchKwList c kjs = some (.error m) → matchKwList c2 kjs = some (.error m) := by
  intro kjs
  induction kjs with
  | nil => intro m h; simp [matchKwList] at h
  | cons kj rest ih =>
    intro m h
    simp only [matchKwList] at h ⊢
    cases hc : compileKeyword (pyStr kj) with
    | none =>
      have hn : searchOutcome (pyStr kj) c = none := by
        unfold searchOutcome; rw [hc]
      rw [hn] at h
      simp at h
    | some r =>
      cases r with
      | error u =>
        have hsc : ∀ cc : String, searchOutcome (pyStr kj) cc = some SearchRes.raised :=
          fun cc => by unfold searchOutcome; rw [hc]
        simp only [hsc c] at h
        simp only [Option.some.injEq, Except.error.injEq] at h
        simp only [hsc c2]
        rw [h]
      | ok atoms =>
        have hsc : ∀ cc : String, searchOutcome (pyStr kj) cc
            = some (if reSearch atoms cc.data then SearchRes.found else SearchRes.missed) :=
          fun cc => by unfold searchOutcome; rw [hc]
        simp only [hsc c] at h
        simp only [hsc c2]
        by_cases h1 : reSearch atoms c.data = true
        · simp only [if_pos h1] at h
          cases hr : matchKwList c rest with
          | none => rw [hr] at h; simp at h
          | some r2 =>
            cases r2 with
            | ok ms => rw [hr] at h; simp at h
            | error e2 =>
              rw [hr] at h
              simp only [Option.some.injEq, Except.error.injEq] at h
              subst h
              have hrec := ih e2 hr
              by_cases h2 : reSearch atoms c2.data = true
              · simp only [if_pos h2, hrec]
              · simp only [if_neg h2]
                exact hrec
        · simp only [if_neg h1] at h
          have hrec := ih m h
          by_cases h2 : reSearch atoms c2.data = true
          · simp only [if_pos h2, hrec]
          · simp only [if_neg h2]
            exact hrec

/-- Whether `match_keywords` raises, and with which message, depends
only on the keywords object. -/
theorem match_keywords_error_indep (c c2 : String) (kJ : PyVal) (m : String)
    (h : match_keywords c kJ = some (.error m)) :
    match_keywords c2 kJ = some (.error m) := by
  unfold match_keywords at h ⊢
  cases hi : pyIter kJ with
  | error e => simp only [hi] at h ⊢; exact h
  | ok kjs => simp only [hi] at h ⊢; exact matchKwList_error_indep c c2 kjs m h

/-- If the entry loop ends with an error then `match_keywords` raises on
every content, in particular already on the first entry. -/
theorem processEntries_error_kw (kJ : PyVal) :
    ∀ (es : List FeedEntry) (ms : List MatchedEntry) (m : String),
      processEntries kJ es = some (ms, some m) →
        ∀ c, match_keywords c kJ = some (.error m) := by
  intro es
  induction es with
  | nil => intro ms m h c; simp [processEntries] at h
  | cons e es2 ih =>
    intro ms m h c
    simp only [processEntries] at h
    cases hmk : match_keywords (entryContent e) kJ with
    | none => rw [hmk] at h; simp at h
    | some r =>
      cases r with
      | error m2 =>
        simp only [hmk, Option.some.injEq, Prod.mk.injEq] at h
        have hm : m2 = m := by
          have := h.2
          simp at this
          exact this
        rw [← hm]
        exact match_keywords_error_indep (entryContent e) c kJ m2 hmk
      | ok msK =>
        simp only [hmk] at h
        by_cases hemp : msK.isEmpty = true
        · rw [if_pos hemp] at h
          exact ih ms m h c
        · rw [if_neg hemp] at h
          cases hr : processEntries kJ es2 with
          | none => rw [hr] at h; simp at h
          | some pr =>
            obtain ⟨rest, err⟩ := pr
            rw [hr] at h
            simp only [Option.some.injEq, Prod.mk.injEq] at h
            exact ih rest m (by rw [hr, h.2]) c

/-- If the entry loop ends with an error, the collected match list is
empty: the raise is keyword-determined, so it already fires on the
first entry, before anything is collected. -/
theorem processEntries_error_nil (kJ : PyVal) :
    ∀ (es : List FeedEntry) (ms : List MatchedEntry) (m : String),
      processEntries kJ es = some (ms, some m) → ms = [] := by
  intro es
  induction es with
  | nil => intro ms m h; simp [processEntries] at h
  | cons e es2 ih =>
    intro ms m h
    simp only [processEntries] at h
    cases hmk : match_keywords (entryContent e) kJ with
    | none => rw [hmk] at h; simp at h
    | some r =>
      cases r with
      | error m2 =>
        simp only [hmk, Option.some.injEq, Prod.mk.injEq] at h
        exact h.1.symm
      | ok msK =>
        simp only [hmk] at h
        by_cases hemp : msK.isEmpty = true
        · rw [if_pos hemp] at h
          exact ih ms m h
        · rw [if_neg hemp] at h
          cases hr : processEntries kJ es2 with
          | none => rw [hr] at h; simp at h
          | some pr =>
            obtain ⟨rest, err⟩ := pr
            rw [hr] at h
            simp only [Option.some.injEq, Prod.mk.injEq] at h
            have hkw := processEntries_error_kw kJ es2 rest m (by rw [hr, h.2]) (entryContent e)
            rw [hmk] at hkw
            simp at hkw

/-- An error-marked `process_feed` result carries no matches. -/
theorem process_feed_error_no_matches (fetch : PyVal → Except String (List FeedEntry))
    (u kJ : PyVal) (r : FeedResult)
    (h : process_feed fetch u kJ = some r) (he : r.error.isSome) :
    r.matchList = [] := by
  unfold process_feed at h
  cases hf : fetch u with
  | error e =>
    simp only [hf, Option.some.injEq] at h
    rw [← h]
  | ok es =>
    simp only [hf] at h
    cases hp : processEntries kJ es with
    | none => rw [hp] at h; simp at h
    | some pr =>
      obtain ⟨ms, err⟩ := pr
      rw [hp] at h
      simp only [Option.some.injEq] at h
      subst h
      cases err with
      | none => simp at he
      | some m => exact processEntries_error_nil kJ es ms m hp

/-- Inversion of a completed invocation: a 200 response exposes the
collected results, and the reported details are exactly the alert
filter of those results. -/
theorem lambda_handler_ok_inv (fetch : PyVal → Except String (List FeedEntry))
    (post : Message → Except String Nat) (cfg : PyVal)
    (posts : List Message) (resp : Response)
    (h : lambda_handler fetch post cfg = some (posts, .ok resp)) :
    ∃ feedItems results,
      pyIter (pyGetD cfg "feeds" (PyVal.arr [])) = .ok feedItems ∧
      collectSome (scanResults fetch (pyGetD cfg "keywords" (PyVal.arr [])) feedItems)
        = some results ∧
      resp.body.details = alertsOf results ∧
      resp.statusCode = 200 ∧
      resp.body.feeds_with_matches = (alertsOf results).length ∧
      resp.body.alerts_sent = (alertsOf results).length := by
  cases cfg with
  | null => simp [lambda_handler] at h
  | bool b => simp [lambda_handler] at h
  | num n => simp [lambda_handler] at h
  | str s => simp [lambda_handler] at h
  | arr xs => simp [lambda_handler] at h
  | obj kvs =>
    simp only [lambda_handler] at h
    split at h
    · simp at h
    · rename_i feedItems hIter
      split at h
      · simp at h
      · rename_i results hColl
        split at h
        · simp at h
        · rename_i u hPr
          split at h
          · simp at h
          · rename_i n hLen
            simp only [Option.some.injEq, Prod.mk.injEq, Except.ok.injEq] at h
            obtain ⟨hp, hr⟩ := h
            exact ⟨feedItems, results, hIter, hColl,
              by rw [← hr], by rw [← hr], by rw [← hr], by rw [← hr]⟩

/- ------------------------------------------------------------------
Lemmas: the alert payload for string keywords builds without raising
and carries one attachment per matched entry.
------------------------------------------------------------------ -/

/-- Joining a list of string values succeeds. -/
theorem pyJoinComma_strs (ss : List String) :
    pyJoinComma (ss.map PyVal.str) = some (String.intercalate ", " ss) := by
  have h : strValues (ss.map PyVal.str) = some ss := by
    induction ss with
    | nil => rfl
    | cons s ss ih => simp [strValues, ih]
  unfold pyJoinComma
  rw [h]

/-- An attachment builds for a match whose keywords are string values. -/
theorem mkAttachment_isSome (feed : PyVal) (me : MatchedEntry)
    (h : ∃ ss : List String, me.keywords = List.map PyVal.str ss) :
    ∃ a, mkAttachment feed me = some a := by
  obtain ⟨ss, hss⟩ := h
  unfold mkAttachment
  rw [hss, pyJoinComma_strs]
  exact ⟨_, rfl⟩

/-- The attachment loop over one feed result builds one attachment per
matched entry when all keyword values are strings. -/
theorem attachmentsFor_strs (feed : PyVal) (mes : List MatchedEntry)
    (h : ∀ me ∈ mes, ∃ ss : List String, me.keywords = List.map PyVal.str ss) :
    ∃ l, attachmentsFor feed mes = some l ∧ l.length = mes.length := by
  induction mes with
  | nil => exact ⟨[], rfl, rfl⟩
  | cons me mes ih =>
    obtain ⟨a, ha⟩ := mkAttachment_isSome feed me (h me (List.mem_cons_self me mes))
    obtain ⟨l, hl, hlen⟩ := ih (fun x hx => h x (List.mem_cons_of_mem _ hx))
    refine ⟨a :: l, ?_, by simp [hlen]⟩
    simp [attachmentsFor, ha, hl]

/-- The full attachment list covers every matched entry of every alert:
its length is the total match count. -/
theorem buildAttachments_strs (alerts : List FeedResult)
    (h : ∀ r ∈ alerts, ∀ me ∈ r.matchList,
      ∃ ss : List String, me.keywords = List.map PyVal.str ss) :
    ∃ atts, buildAttachments alerts = some atts
      ∧ atts.length = (alerts.map (fun a => a.matchList.length)).sum := by
  induction alerts with
  | nil => exact ⟨[], rfl, rfl⟩
  | cons a rest ih =>
    obtain ⟨l1, hl1, hlen1⟩ := attachmentsFor_strs a.feed a.matchList
      (h a (List.mem_cons_self a rest))
    obtain ⟨l2, hl2, hlen2⟩ := ih (fun r hr => h r (List.mem_cons_of_mem _ hr))
    refine ⟨l1 ++ l2, ?_, ?_⟩
    · simp [buildAttachments, hl1, hl2]
    · simp [hlen1, hlen2]

/-- `send_alert` on alerts with string keywords builds one message
covering every matched entry and performs exactly one POST of it. -/
theorem send_alert_msg (post : Message → Except String Nat) (alerts : List FeedResult)
    (h : ∀ r ∈ alerts, ∀ me ∈ r.matchList,
      ∃ ss : List String, me.keywords = List.map PyVal.str ss) :
    ∃ msg, buildMessage alerts = some msg
      ∧ msg.attachments.length = (alerts.map (fun a => a.matchList.length)).sum
      ∧ (send_alert post alerts).1 = [msg]
      ∧ (send_alert post alerts).2
          = (match post msg with | .error e => .error e | .ok _ => .ok ()) := by
  obtain ⟨atts, hb, hlen⟩ := buildAttachments_strs alerts h
  refine ⟨Message.mk "🚨 **Threat Intelligence Alert** 🚨\n" atts, ?_, hlen, ?_, ?_⟩
  · simp [buildMessage, hb]
  · simp [send_alert, buildMessage, hb]
  · simp [send_alert, buildMessage, hb]

/-- Every matched entry collected for literal string keywords carries
string keyword values. -/
theorem litMatches_keywords_str (ks : List String) (es : List FeedEntry) :
    ∀ me ∈ litMatches ks es, ∃ ss : List String, me.keywords = List.map PyVal.str ss := by
  induction es with
  | nil => intro me h; simp [litMatches] at h
  | cons e es ih =>
    intro me h
    simp only [litMatches] at h
    by_cases hemp : (ks.filter (fun k => specOccursWB k (entryContent e))).isEmpty = true
    · rw [if_pos hemp] at h
      exact ih me h
    · rw [if_neg hemp] at h
      rcases List.mem_cons.mp h with h1 | h2
      · exact ⟨ks.filter (fun k => specOccursWB k (entryContent e)), by rw [h1]; rfl⟩
      · exact ih me h2

/-- The feed field of the closed-form result is the feed URL. -/
theorem resultOfLit_feed (fetch : PyVal → Except String (List FeedEntry))
    (ks : List String) (u : PyVal) : (resultOfLit fetch ks u).feed = u := by
  unfold resultOfLit
  cases fetch u <;> rfl

/-- An error-marked closed-form result has no matches. -/
theorem resultOfLit_error_no_matches (fetch : PyVal → Except String (List FeedEntry))
    (ks : List String) (u : PyVal) (h : (resultOfLit fetch ks u).error.isSome) :
    (resultOfLit fetch ks u).matchList = [] := by
  unfold resultOfLit at h ⊢
  cases hf : fetch u with
  | error e => rfl
  | ok es => rw [hf] at h; simp at h

/-- Matched entries of closed-form results carry string keywords. -/
theorem resultOfLit_keywords_str (fetch : PyVal → Except String (List FeedEntry))
    (ks : List String) (u : PyVal) :
    ∀ me ∈ (resultOfLit fetch ks u).matchList,
      ∃ ss : List String, me.keywords = List.map PyVal.str ss := by
  unfold resultOfLit
  cases fetch u with
  | error e => intro me h; simp at h
  | ok es => exact litMatches_keywords_str ks es

/-- The alerts subset of one scan over literal string keywords. -/
def litAlerts (fetch : PyVal → Except String (List FeedEntry))
    (ks : List String) (feeds : List String) : List FeedResult :=
  alertsOf (feeds.map (fun u => resultOfLit fetch ks (PyVal.str u)))

/-- Matched entries of the alerts subset carry string keywords. -/
theorem litAlerts_keywords_str (fetch : PyVal → Except String (List FeedEntry))
    (ks : List String) (feeds : List String) :
    ∀ r ∈ litAlerts fetch ks feeds, ∀ me ∈ r.matchList,
      ∃ ss : List String, me.keywords = List.map PyVal.str ss := by
  intro r hr me hme
  have hmem : r ∈ feeds.map (fun u => resultOfLit fetch ks (PyVal.str u)) :=
    List.mem_of_mem_filter hr
  obtain ⟨u, hu, heq⟩ := List.mem_map.mp hmem
  rw [← heq] at hme
  exact resultOfLit_keywords_str fetch ks (PyVal.str u) me hme

/-- Master case analysis of one invocation on a well-formed config of
literal keywords: with no alerts, no POST happens and the empty 200
summary returns; with alerts, exactly one POST of the batched message
happens, and the invocation outcome follows the transport outcome. -/
theorem handler_cases (fetch : PyVal → Except String (List FeedEntry))
    (post : Message → Except String Nat) (feeds ks : List String)
    (hlit : ∀ k ∈ ks, isLitKw k) :
    (litAlerts fetch ks feeds = [] →
        lambda_handler fetch post (mkCfg feeds ks)
          = some ([], .ok (Response.mk 200 (Summary.mk feeds.length 0 0 []))))
    ∧ (litAlerts fetch ks feeds ≠ [] →
        ∃ msg, buildMessage (litAlerts fetch ks feeds) = some msg
          ∧ msg.attachments.length
              = ((litAlerts fetch ks feeds).map (fun a => a.matchList.length)).sum
          ∧ lambda_handler fetch post (mkCfg feeds ks)
              = some ([msg],
                  match post msg with
                  | .error e => .error e
                  | .ok _ => .ok (Response.mk 200 (Summary.mk feeds.length
                      (litAlerts fetch ks feeds).length
                      (litAlerts fetch ks feeds).length
                      (litAlerts fetch ks feeds))))) := by
  constructor
  · intro hA
    rw [lambda_handler_lit fetch post feeds ks hlit]
    unfold handlerLit
    unfold litAlerts at hA
    rw [hA]
    rfl
  · intro hA
    obtain ⟨msg, hb, hlen, h1, h2⟩ :=
      send_alert_msg post (litAlerts fetch ks feeds) (litAlerts_keywords_str fetch ks feeds)
    refine ⟨msg, hb, hlen, ?_⟩
    rw [lambda_handler_lit fetch post feeds ks hlit]
    unfold handlerLit
    unfold litAlerts at hA h1 h2
    have hne : ¬((alertsOf (feeds.map (fun u => resultOfLit fetch ks (PyVal.str u)))).isEmpty
        = true) := by
      intro hh
      exact hA (List.isEmpty_iff.mp hh)
    simp only [if_neg hne]
    rw [h2, h1]
    unfold litAlerts
    cases hp : post msg with
    | error e => simp only [hp]
    | ok s => simp only [hp]

/- ------------------------------------------------------------------
Claim theorems.
------------------------------------------------------------------ -/

/-- Claim C2: for every FeedResult produced by process_feed, exactly one
of matches and error is the active outcome — an error-marked result
carries zero matches — and an error-marked result is never included in
the alerts subset the orchestrator builds and passes to dispatch: every
result in the reported alert details has at least one match and no
error mark. -/
theorem claim_C2_one_active_outcome :
    (∀ (fetch : PyVal → Except String (List FeedEntry)) (u kJ : PyVal) (r : FeedResult),
        process_feed fetch u kJ = some r → r.error.isSome → r.matchList = [])
    ∧ (∀ (fetch : PyVal → Except String (List FeedEntry))
        (post : Message → Except String Nat) (cfg : PyVal)
        (posts : List Message) (resp : Response),
        lambda_handler fetch post cfg = some (posts, .ok resp) →
          ∀ r ∈ resp.body.details, r.matchList ≠ [] ∧ r.error = none) := by
  constructor
  · exact fun fetch u kJ r h he => process_feed_error_no_matches fetch u kJ r h he
  · intro fetch post cfg posts resp h r hr
    obtain ⟨feedItems, results, hIter, hColl, hDet, _, _, _⟩ :=
      lambda_handler_ok_inv fetch post cfg posts resp h
    rw [hDet] at hr
    obtain ⟨hmem, hfil⟩ := List.mem_filter.mp hr
    have hne : r.matchList ≠ [] := by
      simp only [Bool.not_eq_true'] at hfil
      intro hnil
      rw [hnil] at hfil
      simp at hfil
    refine ⟨hne, ?_⟩
    have hsome := collectSome_mem _ results r hColl hmem
    have hmap : some r ∈ feedItems.map
        (fun f => process_feed fetch f (pyGetD cfg "keywords" (PyVal.arr []))) := by
      simpa [scanResults] using hsome
    obtain ⟨u, hu, heq⟩ := List.mem_map.mp hmap
    cases he : r.error with
    | none => rfl
    | some m =>
      have hempty := process_feed_error_no_matches fetch u _ r heq (by rw [he]; rfl)
      exact absurd hempty hne

/-- Witness for C2 at concrete inputs: a fetch-failing feed yields an
error-marked result with no matches, and a matching feed puts an
unerrored result with one match into the reported details. -/
theorem claim_C2_one_active_outcome_witness :
    (FeedResult.mk (PyVal.str "A") [] (some "boom")).matchList = []
    ∧ ((FeedResult.mk (PyVal.str "A")
          [MatchedEntry.mk "Ransomware hits hospital" "" [PyVal.str "Ransomware"]]
          none).matchList ≠ []
        ∧ (FeedResult.mk (PyVal.str "A")
            [MatchedEntry.mk "Ransomware hits hospital" "" [PyVal.str "Ransomware"]]
            none).error = none) := by
  constructor
  · exact claim_C2_one_active_outcome.1 (fun _ => .error "boom") (PyVal.str "A")
      (PyVal.arr []) (FeedResult.mk (PyVal.str "A") [] (some "boom")) rfl rfl
  · exact claim_C2_one_active_outcome.2
      (fun _ => .ok [FeedEntry.mk (some "Ransomware hits hospital") none none])
      (fun _ => .ok 200) (mkCfg ["A"] ["Ransomware"])
      [Message.mk "🚨 **Threat Intelligence Alert** 🚨\n"
        [Attachment.mk "Ransomware hits hospital" ""
          "**Matched Keywords**: Ransomware\n**Source**: A"]]
      (Response.mk 200 (Summary.mk 1 1 1
        [FeedResult.mk (PyVal.str "A")
          [MatchedEntry.mk "Ransomware hits hospital" "" [PyVal.str "Ransomware"]] none]))
      rfl
      (FeedResult.mk (PyVal.str "A")
        [MatchedEntry.mk "Ransomware hits hospital" "" [PyVal.str "Ransomware"]] none)
      (List.mem_singleton.mpr rfl)

/-- Counterexample to C5 as stated for arbitrary rules: the rule
`c.t` does not occur in the text `cut` as a literal under
word-boundary semantics, yet `match_keywords` returns it, because the
dot is interpolated into the pattern as a regex wildcard. -/
theorem claim_C5_counterexample :
    ¬ (match_keywords "cut" (PyVal.arr (["c.t"].map PyVal.str))
        = some (.ok ((["c.t"].filter (fun k => specOccursWB k "cut")).map PyVal.str))) := by
  decide

/-- Claim C5 (amended to rules free of regex metacharacters): for every
text and every sequence of metacharacter-free rules, match returns
exactly the ordered sublist of the rules, in the supplied order, that
occur in the text case-insensitively between word boundaries; with
empty rules, or empty text where nothing occurs, the result is empty. -/
theorem claim_C5_word_boundary_match (content : String) (ks : List String)
    (h : ∀ k ∈ ks, isLitKw k) :
    match_keywords content (PyVal.arr (ks.map PyVal.str))
      = some (.ok ((ks.filter (fun k => specOccursWB k content)).map PyVal.str)) :=
  match_keywords_lit content ks h

/-- Witness for C5: the word-boundary semantics on concrete inputs
(`cat` occurs in `a cat ran` but not inside `Scattered`). -/
theorem claim_C5_word_boundary_match_witness :
    (match_keywords "a cat ran" (PyVal.arr (["cat", "dog"].map PyVal.str))
      = some (.ok ((["cat", "dog"].filter
          (fun k => specOccursWB k "a cat ran")).map PyVal.str)))
    ∧ (match_keywords "Scattered" (PyVal.arr (["cat"].map PyVal.str))
      = some (.ok ((["cat"].filter (fun k => specOccursWB k "Scattered")).map PyVal.str))) :=
  ⟨claim_C5_word_boundary_match "a cat ran" ["cat", "dog"] (by decide),
   claim_C5_word_boundary_match "Scattered" ["cat"] (by decide)⟩

/-- Counterexample to C6 as stated for arbitrary rules: a rule that is
not valid regex syntax is interpolated into the pattern and raises
`re.error` instead of being searched for literally — `match_keywords`
does not return a sequence. -/
theorem claim_C6_counterexample :
    ¬ ∃ ms, match_keywords "threat intel" (PyVal.arr [PyVal.str "("]) = some (.ok ms) := by
  rintro ⟨ms, h⟩
  have he : match_keywords "threat intel" (PyVal.arr [PyVal.str "("])
      = some (.error reErrMsg) := by decide
  rw [he] at h
  simp at h

/-- Claim C6 (amended to rules free of regex metacharacters): such rules
are treated as case-insensitive literals and the function always
returns a sequence, never raising; rules containing regex syntax are
interpolated as patterns and can raise `re.error`. -/
theorem claim_C6_literal_rules_no_raise (content : String) (ks : List String)
    (h : ∀ k ∈ ks, isLitKw k) :
    match_keywords content (PyVal.arr (ks.map PyVal.str))
      = some (.ok ((ks.filter (fun k => specOccursWB k content)).map PyVal.str))
    ∧ ∀ m, match_keywords content (PyVal.arr (ks.map PyVal.str)) ≠ some (.error m) := by
  refine ⟨match_keywords_lit content ks h, ?_⟩
  intro m hm
  rw [match_keywords_lit content ks h] at hm
  simp at hm

/-- Witness for C6 on concrete inputs: matching is case-insensitive and
raise-free for a metacharacter-free rule. -/
theorem claim_C6_literal_rules_no_raise_witness :
    (match_keywords "Data Breach" (PyVal.arr (["data breach"].map PyVal.str))
      = some (.ok ((["data breach"].filter
          (fun k => specOccursWB k "Data Breach")).map PyVal.str)))
    ∧ match_keywords "Data Breach" (PyVal.arr (["data breach"].map PyVal.str))
        ≠ some (.error reErrMsg) :=
  ⟨(claim_C6_literal_rules_no_raise "Data Breach" ["data breach"] (by decide)).1,
   (claim_C6_literal_rules_no_raise "Data Breach" ["data breach"] (by decide)).2 reErrMsg⟩

/-- Claim C1: when exactly one of the configured feeds fails to fetch,
its `process_feed` result carries the error description instead of
raising, every other feed still produces an unerrored result, the
invocation completes with a 200 summary counting all feeds, and
dispatch is still invoked (one POST) exactly when the successful feeds
produced matches. -/
theorem claim_C1_partial_failure (fetch : PyVal → Except String (List FeedEntry))
    (post : Message → Except String Nat) (feeds ks : List String) (i : Nat)
    (hi : i < feeds.length) (hlit : ∀ k ∈ ks, isLitKw k)
    (hpost : ∀ m, post m = .ok 200) (e0 : String)
    (herr : fetch (PyVal.str (feeds.get ⟨i, hi⟩)) = .error e0)
    (hok : ∀ j (hj : j < feeds.length), j ≠ i →
      ∃ es, fetch (PyVal.str (feeds.get ⟨j, hj⟩)) = .ok es) :
    (resultOfLit fetch ks (PyVal.str (feeds.get ⟨i, hi⟩))).error = some e0
    ∧ (∀ j (hj : j < feeds.length), j ≠ i →
        (resultOfLit fetch ks (PyVal.str (feeds.get ⟨j, hj⟩))).error = none)
    ∧ (∀ r ∈ litAlerts fetch ks feeds, r.error = none)
    ∧ ∃ posts resp,
        lambda_handler fetch post (mkCfg feeds ks) = some (posts, .ok resp)
        ∧ resp.statusCode = 200
        ∧ resp.body.total_feeds_checked = feeds.length
        ∧ resp.body.details = litAlerts fetch ks feeds
        ∧ (litAlerts fetch ks feeds = [] → posts = [])
        ∧ (litAlerts fetch ks feeds ≠ [] → ∃ msg, posts = [msg]) := by
  refine ⟨?_, ?_, ?_, ?_⟩
  · unfold resultOfLit
    rw [herr]
  · intro j hj hne
    obtain ⟨es, hes⟩ := hok j hj hne
    unfold resultOfLit
    rw [hes]
  · intro r hr
    have hne : r.matchList ≠ [] := by
      obtain ⟨hmem, hfil⟩ := List.mem_filter.mp hr
      simp only [Bool.not_eq_true'] at hfil
      intro hnil
      rw [hnil] at hfil
      simp at hfil
    have hmem : r ∈ feeds.map (fun u => resultOfLit fetch ks (PyVal.str u)) :=
      List.mem_of_mem_filter hr
    obtain ⟨u, hu, heq⟩ := List.mem_map.mp hmem
    cases he : r.error with
    | none => rfl
    | some m =>
      have hempty := resultOfLit_error_no_matches fetch ks (PyVal.str u)
        (by rw [heq, he]; rfl)
      rw [heq] at hempty
      exact absurd hempty hne
  · obtain ⟨hempty, hfull⟩ := handler_cases fetch post feeds ks hlit
    by_cases hA : litAlerts fetch ks feeds = []
    · refine ⟨[], Response.mk 200 (Summary.mk feeds.length 0 0 []), hempty hA, rfl, rfl, ?_,
        fun _ => rfl, fun hc => absurd hA hc⟩
      rw [hA]
    · obtain ⟨msg, hb, hlen, hrun⟩ := hfull hA
      rw [hpost msg] at hrun
      exact ⟨[msg], Response.mk 200 (Summary.mk feeds.length
          (litAlerts fetch ks feeds).length (litAlerts fetch ks feeds).length
          (litAlerts fetch ks feeds)),
        hrun, rfl, rfl, rfl, fun hc => absurd hc hA, fun _ => ⟨msg, rfl⟩⟩

/-- Witness for C1: two feeds, the first fails to fetch, the second has
one matching entry; the failing feed is error-marked, the other is not,
and the run returns a 200 summary with one alert. -/
theorem claim_C1_partial_failure_witness :
    (resultOfLit
        (fun u => if u = PyVal.str "A" then .error "timeout"
                  else .ok [FeedEntry.mk (some "Ransomware hits hospital") none none])
        ["Ransomware"] (PyVal.str ((["A", "B"] : List String).get ⟨0, by decide⟩))).error
      = some "timeout"
    ∧ ∃ posts resp,
        lambda_handler
          (fun u => if u = PyVal.str "A" then .error "timeout"
                    else .ok [FeedEntry.mk (some "Ransomware hits hospital") none none])
          (fun _ => .ok 200) (mkCfg ["A", "B"] ["Ransomware"])
          = some (posts, .ok resp)
        ∧ resp.statusCode = 200
        ∧ resp.body.total_feeds_checked = 2 := by
  have h := claim_C1_partial_failure
    (fun u => if u = PyVal.str "A" then .error "timeout"
              else .ok [FeedEntry.mk (some "Ransomware hits hospital") none none])
    (fun _ => .ok 200) ["A", "B"] ["Ransomware"] 0 (by decide) (by decide)
    (fun _ => rfl) "timeout" rfl
    (fun j hj hne => by
      match j with
      | 0 => exact absurd rfl hne
      | 1 => exact ⟨[FeedEntry.mk (some "Ransomware hits hospital") none none], rfl⟩
      | n + 2 => simp at hj)
  obtain ⟨h1, _, _, posts, resp, hrun, hsc, htot, _⟩ := h
  exact ⟨h1, posts, resp, hrun, hsc, htot⟩

/-- Counterexample to C3 as stated: when the webhook POST raises (the
transport throws), `send_alert` does not catch it — the exception
propagates out of `lambda_handler`, so the invocation does NOT complete
with a 200 summary. -/
theorem claim_C3_counterexample :
    ¬ ∃ posts resp,
      lambda_handler
          (fun _ => .ok [FeedEntry.mk (some "Ransomware hits hospital") none none])
          (fun _ => .error "ConnectionError") (mkCfg ["A"] ["Ransomware"])
        = some (posts, .ok resp) := by
  rintro ⟨posts, resp, h⟩
  have he : lambda_handler
      (fun _ => .ok [FeedEntry.mk (some "Ransomware hits hospital") none none])
      (fun _ => .error "ConnectionError") (mkCfg ["A"] ["Ransomware"])
      = some ([Message.mk "🚨 **Threat Intelligence Alert** 🚨\n"
          [Attachment.mk "Ransomware hits hospital" ""
            "**Matched Keywords**: Ransomware\n**Source**: A"]],
        .error "ConnectionError") := rfl
  rw [he] at h
  simp at h

/-- Claim C3 (amended): when the webhook POST returns a status — any
status, 2xx or not — the failure is at most logged and the invocation
still completes and returns its structured summary with status 200;
only a raising transport call propagates and fails the invocation. -/
theorem claim_C3_non2xx_does_not_fail (fetch : PyVal → Except String (List FeedEntry))
    (feeds ks : List String) (hlit : ∀ k ∈ ks, isLitKw k)
    (post : Message → Except String Nat) (s : Nat) (hpost : ∀ m, post m = .ok s) :
    ∃ posts resp, lambda_handler fetch post (mkCfg feeds ks) = some (posts, .ok resp)
      ∧ resp.statusCode = 200 := by
  obtain ⟨hempty, hfull⟩ := handler_cases fetch post feeds ks hlit
  by_cases hA : litAlerts fetch ks feeds = []
  · exact ⟨[], _, hempty hA, rfl⟩
  · obtain ⟨msg, _, _, hrun⟩ := hfull hA
    rw [hpost msg] at hrun
    exact ⟨[msg], _, hrun, rfl⟩

/-- Witness for C3 (amended): a POST answered with status 500 — a
delivery failure — still yields a completed invocation with status
200. -/
theorem claim_C3_non2xx_does_not_fail_witness :
    ∃ posts resp, lambda_handler
        (fun _ => .ok [FeedEntry.mk (some "Ransomware hits hospital") none none])
        (fun _ => .ok 500) (mkCfg ["A"] ["Ransomware"]) = some (posts, .ok resp)
      ∧ resp.statusCode = 200 :=
  claim_C3_non2xx_does_not_fail
    (fun _ => .ok [FeedEntry.mk (some "Ransomware hits hospital") none none])
    ["A"] ["Ransomware"] (by decide) (fun _ => .ok 500) 500 (fun _ => rfl)

/-- Claim C4: dispatch performs no POST at all when the alerts list is
empty, and exactly one POST — of a single payload with one attachment
per matched entry across all alerted feeds — when it is non-empty. -/
theorem claim_C4_single_batched_post (fetch : PyVal → Except String (List FeedEntry))
    (post : Message → Except String Nat) (feeds ks : List String)
    (hlit : ∀ k ∈ ks, isLitKw k) :
    (litAlerts fetch ks feeds = [] →
      ∃ resp, lambda_handler fetch post (mkCfg feeds ks) = some ([], .ok resp))
    ∧ (litAlerts fetch ks feeds ≠ [] →
      ∃ msg outcome,
        lambda_handler fetch post (mkCfg feeds ks) = some ([msg], outcome)
        ∧ buildMessage (litAlerts fetch ks feeds) = some msg
        ∧ msg.attachments.length
            = ((litAlerts fetch ks feeds).map (fun a => a.matchList.length)).sum) := by
  obtain ⟨hempty, hfull⟩ := handler_cases fetch post feeds ks hlit
  constructor
  · intro hA
    exact ⟨_, hempty hA⟩
  · intro hA
    obtain ⟨msg, hb, hlen, hrun⟩ := hfull hA
    exact ⟨msg, _, hrun, hb, hlen⟩

/-- Witness for C4: two feeds with one matching entry each produce one
POST whose payload carries both entries (two attachments). -/
theorem claim_C4_single_batched_post_witness :
    ∃ msg outcome, lambda_handler
        (fun _ => .ok [FeedEntry.mk (some "Ransomware hits hospital") none none])
        (fun _ => .ok 200) (mkCfg ["A", "B"] ["Ransomware"])
        = some ([msg], outcome)
      ∧ buildMessage (litAlerts
          (fun _ => .ok [FeedEntry.mk (some "Ransomware hits hospital") none none])
          ["Ransomware"] ["A", "B"]) = some msg
      ∧ msg.attachments.length
          = ((litAlerts
              (fun _ => .ok [FeedEntry.mk (some "Ransomware hits hospital") none none])
              ["Ransomware"] ["A", "B"]).map (fun a => a.matchList.length)).sum :=
  (claim_C4_single_batched_post
    (fun _ => .ok [FeedEntry.mk (some "Ransomware hits hospital") none none])
    (fun _ => .ok 200) ["A", "B"] ["Ransomware"] (by decide)).2 (by decide)

/-- Claim C7: the end-to-end scenario — feeds A and B, keyword
`Ransomware`, one matching entry on A, none on B, delivery answered
with a non-2xx status — returns the structured summary
`feeds_checked = 2, feeds_with_matches = 1, alerts_sent = 1` with one
alert detail; with no matches anywhere the same run reports
`alerts_sent = 0`, so a caller can tell delivery-failed-but-matched
apart from no-matches. -/
theorem claim_C7_summary_counts :
    (∃ posts, lambda_handler
        (fun u => if u = PyVal.str "A"
                  then .ok [FeedEntry.mk (some "Ransomware hits hospital") none (some "L")]
                  else .ok [FeedEntry.mk (some "Weekly roundup") (some "nothing to see") none])
        (fun _ => .ok 500) (mkCfg ["A", "B"] ["Ransomware"])
      = some (posts, .ok (Response.mk 200 (Summary.mk 2 1 1
          [FeedResult.mk (PyVal.str "A")
            [MatchedEntry.mk "Ransomware hits hospital" "L" [PyVal.str "Ransomware"]]
            none]))))
    ∧ lambda_handler
        (fun _ => .ok [FeedEntry.mk (some "Weekly roundup") (some "nothing to see") none])
        (fun _ => .ok 500) (mkCfg ["A", "B"] ["Ransomware"])
      = some ([], .ok (Response.mk 200 (Summary.mk 2 0 0 []))) := by
  constructor
  · exact ⟨[Message.mk "🚨 **Threat Intelligence Alert** 🚨\n"
      [Attachment.mk "Ransomware hits hospital" "L"
        "**Matched Keywords**: Ransomware\n**Source**: A"]], rfl⟩
  · rfl

/-- Counterexample to C8 as stated: a malformed (non-iterable) `feeds`
field is NOT defaulted to an empty sequence — iterating it raises
`TypeError` and the invocation fails instead of returning a 200
summary. -/
theorem claim_C8_counterexample :
    ¬ ∃ posts resp,
      lambda_handler (fun _ => .ok []) (fun _ => .ok 200)
          (PyVal.obj [("feeds", PyVal.num 5)])
        = some (posts, .ok resp) := by
  rintro ⟨posts, resp, h⟩
  have he : lambda_handler (fun _ => .ok []) (fun _ => .ok 200)
      (PyVal.obj [("feeds", PyVal.num 5)])
      = some ([], .error "TypeError: object is not iterable") := rfl
  rw [he] at h
  simp at h

/-- Claim C8 (amended): when the config document loads as a dict whose
`feeds` and `keywords` fields are MISSING, they default to empty
sequences and the invocation is a no-op scan — zero feeds processed, no
POST, a 200 summary with zero counts; a malformed (non-sequence) field
is used as-is rather than defaulted. -/
theorem claim_C8_missing_fields_noop (fetch : PyVal → Except String (List FeedEntry))
    (post : Message → Except String Nat) (kvs : List (String × PyVal))
    (hf : kvs.lookup "feeds" = none) (hk : kvs.lookup "keywords" = none) :
    lambda_handler fetch post (PyVal.obj kvs)
      = some ([], .ok (Response.mk 200 (Summary.mk 0 0 0 []))) := by
  have h1 : pyGetD (PyVal.obj kvs) "feeds" (PyVal.arr []) = PyVal.arr [] := by
    simp [pyGetD, hf]
  have h2 : pyGetD (PyVal.obj kvs) "keywords" (PyVal.arr []) = PyVal.arr [] := by
    simp [pyGetD, hk]
  simp only [lambda_handler, h1, h2]
  rfl

/-- Witness for C8 (amended): the empty config dict yields the no-op
200 summary even though the fetch collaborator would fail. -/
theorem claim_C8_missing_fields_noop_witness :
    lambda_handler (fun _ => .error "net down") (fun _ => .ok 200) (PyVal.obj [])
      = some ([], .ok (Response.mk 200 (Summary.mk 0 0 0 []))) :=
  claim_C8_missing_fields_noop (fun _ => .error "net down") (fun _ => .ok 200) [] rfl rfl

/-- The feed items the handler iterates over, as extracted from the
config (empty when iteration would raise). -/
def feedItemsOf (cfg : PyVal) : List PyVal :=
  match pyIter (pyGetD cfg "feeds" (PyVal.arr [])) with
  | .ok xs => xs
  | .error _ => []

/-- Claim C9: the scan is deterministic in its inputs — two runs with
the same config whose fetch collaborators agree on every configured
feed (identical feed content) and whose transports agree produce
identical invocation results, in particular identical match sets. -/
theorem claim_C9_idempotent_scan (cfg : PyVal)
    (fetch1 fetch2 : PyVal → Except String (List FeedEntry))
    (post1 post2 : Message → Except String Nat)
    (hf : ∀ u ∈ feedItemsOf cfg, fetch1 u = fetch2 u)
    (hp : ∀ m, post1 m = post2 m) :
    lambda_handler fetch1 post1 cfg = lambda_handler fetch2 post2 cfg := by
  have hsend : send_alert post1 = send_alert post2 := by
    funext a
    unfold send_alert
    cases hb : buildMessage a with
    | none => rfl
    | some msg => simp only [hp]
  cases cfg with
  | null => rfl
  | bool b => rfl
  | num n => rfl
  | str s => rfl
  | arr xs => rfl
  | obj kvs =>
    simp only [lambda_handler]
    cases hi : pyIter (pyGetD (PyVal.obj kvs) "feeds" (PyVal.arr [])) with
    | error e => simp only [hi]
    | ok feedItems =>
      have hscan : scanResults fetch1 (pyGetD (PyVal.obj kvs) "keywords" (PyVal.arr []))
            feedItems
          = scanResults fetch2 (pyGetD (PyVal.obj kvs) "keywords" (PyVal.arr []))
            feedItems := by
        unfold scanResults
        apply List.map_congr_left
        intro u hu
        have hfu : fetch1 u = fetch2 u := by
          apply hf
          unfold feedItemsOf
          rw [hi]
          exact hu
        unfold process_feed
        rw [hfu]
      simp only [hi, hscan, hsend]

/-- Witness for C9: two fetch collaborators that agree on the one
configured feed (and differ elsewhere) give identical runs. -/
theorem claim_C9_idempotent_scan_witness :
    lambda_handler (fun u => if u = PyVal.str "A" then .ok [] else .error "net")
        (fun _ => .ok 200) (mkCfg ["A"] ["x"])
      = lambda_handler (fun _ => .ok []) (fun _ => .ok 200) (mkCfg ["A"] ["x"]) :=
  claim_C9_idempotent_scan (mkCfg ["A"] ["x"])
    (fun u => if u = PyVal.str "A" then .ok [] else .error "net") (fun _ => .ok [])
    (fun _ => .ok 200) (fun _ => .ok 200)
    (fun u hu => by
      have hu2 : u = PyVal.str "A" := by
        have hm : u ∈ [PyVal.str "A"] := hu
        simpa using hm
      subst hu2
      rfl)
    (fun m => rfl)

/-- Claim C10: the per-feed results are assembled in the submission
order of the configured feeds (the join awaits each future in
submission order), so the result at position j belongs to feed j, the
reported details are the order-preserving alert filter of that list,
and hence a sublist of it — deterministic given identical inputs. -/
theorem claim_C10_submission_order (fetch : PyVal → Except String (List FeedEntry))
    (post : Message → Except String Nat) (feeds ks : List String)
    (hlit : ∀ k ∈ ks, isLitKw k) (posts : List Message) (resp : Response)
    (h : lambda_handler fetch post (mkCfg feeds ks) = some (posts, .ok resp)) :
    (scanResults fetch (PyVal.arr (ks.map PyVal.str)) (feeds.map PyVal.str)
      = feeds.map (fun u => some (resultOfLit fetch ks (PyVal.str u))))
    ∧ (∀ j (hj1 : j < (feeds.map (fun u => resultOfLit fetch ks (PyVal.str u))).length)
        (hj2 : j < feeds.length),
        ((feeds.map (fun u => resultOfLit fetch ks (PyVal.str u))).get ⟨j, hj1⟩).feed
          = PyVal.str (feeds.get ⟨j, hj2⟩))
    ∧ resp.body.details = litAlerts fetch ks feeds
    ∧ List.Sublist (litAlerts fetch ks feeds)
        (feeds.map (fun u => resultOfLit fetch ks (PyVal.str u))) := by
  refine ⟨?_, ?_, ?_, ?_⟩
  · unfold scanResults
    rw [List.map_map]
    exact List.map_congr_left (fun u _ => process_feed_lit fetch ks (PyVal.str u) hlit)
  · intro j hj1 hj2
    rw [List.get_eq_getElem, List.get_eq_getElem, List.getElem_map]
    exact resultOfLit_feed fetch ks _
  · obtain ⟨hempty, hfull⟩ := handler_cases fetch post feeds ks hlit
    by_cases hA : litAlerts fetch ks feeds = []
    · rw [hempty hA] at h
      simp only [Option.some.injEq, Prod.mk.injEq, Except.ok.injEq] at h
      rw [← h.2, hA]
    · obtain ⟨msg, hb, hlen, hrun⟩ := hfull hA
      rw [hrun] at h
      cases hp : post msg with
      | error e =>
        simp only [hp] at h
        simp at h
      | ok s =>
        simp only [hp] at h
        simp only [Option.some.injEq, Prod.mk.injEq, Except.ok.injEq] at h
        rw [← h.2]
  · unfold litAlerts alertsOf
    exact List.filter_sublist _

/-- Witness for C10: a one-feed run in which the collected result list
follows the configured feed order and the details equal the alert
filter. -/
theorem claim_C10_submission_order_witness :
    (scanResults (fun _ => .ok [FeedEntry.mk (some "Ransomware hits hospital") none none])
        (PyVal.arr ((["Ransomware"] : List String).map PyVal.str))
        ((["A"] : List String).map PyVal.str)
      = (["A"] : List String).map (fun u => some (resultOfLit
          (fun _ => .ok [FeedEntry.mk (some "Ransomware hits hospital") none none])
          ["Ransomware"] (PyVal.str u))))
    ∧ (Response.mk 200 (Summary.mk 1 1 1
        [FeedResult.mk (PyVal.str "A")
          [MatchedEntry.mk "Ransomware hits hospital" "" [PyVal.str "Ransomware"]]
          none])).body.details
      = litAlerts (fun _ => .ok [FeedEntry.mk (some "Ransomware hits hospital") none none])
          ["Ransomware"] ["A"] := by
  have h := claim_C10_submission_order
    (fun _ => .ok [FeedEntry.mk (some "Ransomware hits hospital") none none])
    (fun _ => .ok 200) ["A"] ["Ransomware"] (by decide)
    [Message.mk "🚨 **Threat Intelligence Alert** 🚨\n"
      [Attachment.mk "Ransomware hits hospital" ""
        "**Matched Keywords**: Ransomware\n**Source**: A"]]
    (Response.mk 200 (Summary.mk 1 1 1
      [FeedResult.mk (PyVal.str "A")
        [MatchedEntry.mk "Ransomware hits hospital" "" [PyVal.str "Ransomware"]]
        none]))
    rfl
  exact ⟨h.1, h.2.2.1⟩
